import Mathlib

/-!
Shallow embedding of the timed message sequencer of
`src/handlers/step_1.py` (`send_delayed_sequence`) and proofs about it.

The Python function is an async coroutine that, given a bot client, a chat
id, a list of `TimedMessage` values and an `initial_delay`, sleeps, emits
"typing" chat actions and sends messages strictly sequentially.  We embed
it as a pure function producing the ordered trace of externally visible
actions (sleeps, chat-action attempts, send attempts, log records),
together with the value the call produces: `some ()` when the coroutine
returns normally (the source is annotated `-> None`, so the only normal
return value is `None`, embedded as `()`), and `none` when an exception
escapes the call.

The behaviour of the external Telegram client is an oracle: the result of
the n-th `send_chat_action` call and of the n-th `send_message` call is
given by two functions.  Each call can succeed, raise a `TelegramError`,
or raise some other exception; this mirrors the source's exception
handlers, which catch `TelegramError` only around `send_chat_action`, and
both `TelegramError` and general `Exception` around `send_message`.
-/

namespace Z1Gray

/-- Result of one call into the external Telegram client: success, a raised
`TelegramError`, or a raised exception of any other class. -/
inductive OpResult
  | ok
  | telegramError
  | otherError
deriving DecidableEq

/-- Embeds the `TimedMessage` dataclass of `src/handlers/step_1.py`
(lines 39-43): `text`, `delay_before` (default 0.8), `typing`
(default True).  Delays are embedded as rationals. -/
structure TimedMessage where
  text : String
  delay_before : ℚ := 0.8
  typing : Bool := true
deriving DecidableEq

/-- One externally visible action of the coroutine, in order of
occurrence: a sleep, a `send_chat_action` attempt, a `send_message`
attempt, or a log record (`logger.warning` / `logger.error`). -/
inductive Event
  | sleep (seconds : ℚ)
  | chatAction (chat_id : Int)
  | send (chat_id : Int) (text : String)
  | logWarning
  | logError
deriving DecidableEq

/-- Oracle for the external Telegram client: the result of the n-th
`send_chat_action` call and of the n-th `send_message` call made during
one invocation of the sequencer. -/
structure Bot where
  chatActionResult : Nat → OpResult
  sendMessageResult : Nat → OpResult

/-- Result of one invocation of `send_delayed_sequence`: the ordered trace
of visible actions, and `ret = some ()` if the coroutine returned normally
(its return annotation is `-> None`), `ret = none` if an exception escaped
the call. -/
structure DispatchResult where
  trace : List Event
  ret : Option Unit
deriving DecidableEq

/-- Trace of the `bot.send_message` try/except block of
`send_delayed_sequence` (lines 68-77): the send is attempted once; a
`TelegramError` is caught and logged as a warning, any other exception is
caught and logged as an error; in every case execution continues. -/
def sendPart (bot : Bot) (chat_id : Int) (text : String) (sm : Nat) : List Event :=
  match bot.sendMessageResult sm with
  | OpResult.ok => [Event.send chat_id text]
  | OpResult.telegramError => [Event.send chat_id text, Event.logWarning]
  | OpResult.otherError => [Event.send chat_id text, Event.logError]

/-- Trace of the delay step of the loop body (lines 65-66):
`if delay_before_send > 0: await asyncio.sleep(delay_before_send)`. -/
def sleepEvs (item : TimedMessage) : List Event :=
  if (0 : ℚ) < item.delay_before then [Event.sleep item.delay_before] else []

/-- One iteration of the `for item in sequence` loop of
`send_delayed_sequence` (lines 54-77).  Arguments `ca` and `sm` count the
chat-action and send-message calls already made in this invocation (they
index the oracle).  Returns the events of this iteration, the updated
counters, and whether an exception escaped the iteration (which happens
exactly when `send_chat_action` raises a non-`TelegramError` exception,
since the surrounding `except` clause catches `TelegramError` only). -/
def processItem (bot : Bot) (chat_id : Int) (item : TimedMessage)
    (ca sm : Nat) : List Event × Nat × Nat × Bool :=
  let typingStep : List Event × Nat × Bool :=
    if item.typing = true ∧ (0.2 : ℚ) < item.delay_before then
      match bot.chatActionResult ca with
      | OpResult.ok => ([Event.chatAction chat_id], ca + 1, false)
      | OpResult.telegramError =>
          ([Event.chatAction chat_id, Event.logWarning], ca + 1, false)
      | OpResult.otherError => ([Event.chatAction chat_id], ca + 1, true)
    else ([], ca, false)
  match typingStep with
  | (evTyping, ca2, escaped) =>
    if escaped then (evTyping, ca2, sm, true)
    else
      (evTyping ++ sleepEvs item ++ sendPart bot chat_id item.text sm, ca2, sm + 1, false)

/-- The `for item in sequence` loop of `send_delayed_sequence`
(lines 54-77), threading the call counters through the iterations;
the Bool is true when an exception escaped the loop. -/
def runLoop (bot : Bot) (chat_id : Int) :
    List TimedMessage → Nat → Nat → List Event × Bool
  | [], _, _ => ([], false)
  | item :: rest, ca, sm =>
    match processItem bot chat_id item ca sm with
    | (ev, ca2, sm2, escaped) =>
      if escaped then (ev, true)
      else
        match runLoop bot chat_id rest ca2 sm2 with
        | (evRest, escaped2) => (ev ++ evRest, escaped2)

/-- Trace of the initial-delay step (lines 51-52):
`if initial_delay > 0: await asyncio.sleep(initial_delay)`. -/
def initSleep (initial_delay : ℚ) : List Event :=
  if (0 : ℚ) < initial_delay then [Event.sleep initial_delay] else []

/-- Embeds `send_delayed_sequence` (lines 45-77): an optional initial
sleep (`if initial_delay > 0`), then the per-item loop.  In the source
`initial_delay` defaults to 0. -/
def send_delayed_sequence (bot : Bot) (chat_id : Int)
    (sequence : List TimedMessage) (initial_delay : ℚ) : DispatchResult :=
  match runLoop bot chat_id sequence 0 0 with
  | (ev, escaped) => ⟨initSleep initial_delay ++ ev, if escaped then none else some ()⟩

/-- Texts of the send attempts occurring in a trace, in order. -/
def sentTexts (evs : List Event) : List String :=
  evs.filterMap fun e =>
    match e with
    | Event.send _ t => some t
    | _ => none

/-- Number of send attempts in a trace. -/
def countSends (evs : List Event) : Nat := (sentTexts evs).length

/-- Number of chat-action (typing presence signal) attempts in a trace. -/
def countChatActions (evs : List Event) : Nat :=
  (evs.filter fun e =>
    match e with
    | Event.chatAction _ => true
    | _ => false).length

/-- Number of sleeps in a trace. -/
def countSleeps (evs : List Event) : Nat :=
  (evs.filter fun e =>
    match e with
    | Event.sleep _ => true
    | _ => false).length

/-- The delivery-failure model of the Telegram client for chat actions:
every failure of `send_chat_action` is a `TelegramError` (the class the
client raises for delivery failures), never some other exception. -/
def chatActionsRecoverable (bot : Bot) : Prop :=
  ∀ n, bot.chatActionResult n ≠ OpResult.otherError

/-- A client whose calls all succeed. -/
def okBot : Bot := ⟨fun _ => OpResult.ok, fun _ => OpResult.ok⟩

/-- A client whose `send_message` calls all raise `TelegramError` and whose
chat actions succeed. -/
def tgSendFailBot : Bot := ⟨fun _ => OpResult.ok, fun _ => OpResult.telegramError⟩

/-- A client whose second `send_message` call (index 1) raises
`TelegramError` and whose other calls succeed. -/
def tgSendFailAt1Bot : Bot :=
  ⟨fun _ => OpResult.ok, fun n => if n = 1 then OpResult.telegramError else OpResult.ok⟩

/-- A client whose `send_chat_action` calls all raise `TelegramError` and
whose sends succeed. -/
def caTgFailBot : Bot := ⟨fun _ => OpResult.telegramError, fun _ => OpResult.ok⟩

/-- A client whose `send_chat_action` calls all raise an exception that is
not a `TelegramError` and whose sends succeed. -/
def caCrashBot : Bot := ⟨fun _ => OpResult.otherError, fun _ => OpResult.ok⟩

/-- Trace of the typing-indicator step of the loop body (lines 59-63), for
the runs in which it does not raise: no event when the guard
`show_typing and delay_before_send > 0.2` is false, otherwise the
`send_chat_action` attempt, followed by a warning log when the client
raises a `TelegramError` (which the `except` clause catches). -/
def typingPart (bot : Bot) (chat_id : Int) (item : TimedMessage) (ca : Nat) : List Event :=
  if item.typing = true ∧ (0.2 : ℚ) < item.delay_before then
    match bot.chatActionResult ca with
    | OpResult.telegramError => [Event.chatAction chat_id, Event.logWarning]
    | _ => [Event.chatAction chat_id]
  else []

/-- Number of `send_chat_action` calls one loop iteration makes for an
item: 1 when the typing guard holds, 0 otherwise. -/
def caCost (item : TimedMessage) : Nat :=
  if item.typing = true ∧ (0.2 : ℚ) < item.delay_before then 1 else 0

/-- Closed-form per-item decomposition of the loop trace: item number `i`
of the sequence contributes the block
`typingPart ++ sleepEvs ++ sendPart`, computed at chat-action index
`ca + (sum of caCost of the previous items)` and send index `sm + i`; the
blocks are concatenated in input order. -/
def seqTraceFrom (bot : Bot) (chat_id : Int) :
    List TimedMessage → Nat → Nat → List Event
  | [], _, _ => []
  | item :: rest, ca, sm =>
    typingPart bot chat_id item ca ++ sleepEvs item
      ++ sendPart bot chat_id item.text sm
      ++ seqTraceFrom bot chat_id rest (ca + caCost item) (sm + 1)

/-- An event touches no delivery target other than the supplied one:
sleeps and log records touch no target, chat actions and sends carry the
chat id they were invoked with. -/
def targetConfined (chat_id : Int) : Event → Bool := fun e =>
  match e with
  | Event.chatAction c => c == chat_id
  | Event.send c _ => c == chat_id
  | _ => true

theorem send_delayed_sequence_trace (bot : Bot) (cid : Int)
    (seq : List TimedMessage) (d : ℚ) :
    (send_delayed_sequence bot cid seq d).trace
      = initSleep d ++ (runLoop bot cid seq 0 0).1 := by
  rcases h : runLoop bot cid seq 0 0 with ⟨ev, escaped⟩
  simp [send_delayed_sequence, h]

theorem send_delayed_sequence_ret (bot : Bot) (cid : Int)
    (seq : List TimedMessage) (d : ℚ) :
    (send_delayed_sequence bot cid seq d).ret
      = if (runLoop bot cid seq 0 0).2 then none else some () := by
  rcases h : runLoop bot cid seq 0 0 with ⟨ev, escaped⟩
  simp [send_delayed_sequence, h]

theorem sentTexts_append (a b : List Event) :
    sentTexts (a ++ b) = sentTexts a ++ sentTexts b :=
  List.filterMap_append a b _

theorem sentTexts_sendPart (bot : Bot) (cid : Int) (t : String) (sm : Nat) :
    sentTexts (sendPart bot cid t sm) = [t] := by
  unfold sendPart
  cases bot.sendMessageResult sm <;> simp [sentTexts]

theorem sentTexts_sleepEvs (item : TimedMessage) :
    sentTexts (sleepEvs item) = [] := by
  unfold sleepEvs
  split <;> simp [sentTexts]

theorem sentTexts_typingPart (bot : Bot) (cid : Int) (item : TimedMessage) (ca : Nat) :
    sentTexts (typingPart bot cid item ca) = [] := by
  unfold typingPart
  split
  · cases bot.chatActionResult ca <;> simp [sentTexts]
  · simp [sentTexts]

theorem processItem_eq_of_not_crash (bot : Bot) (cid : Int) (item : TimedMessage)
    (ca sm : Nat) (h : bot.chatActionResult ca ≠ OpResult.otherError) :
    processItem bot cid item ca sm
      = (typingPart bot cid item ca ++ sleepEvs item
           ++ sendPart bot cid item.text sm,
         ca + caCost item, sm + 1, false) := by
  by_cases hc : item.typing = true ∧ (0.2 : ℚ) < item.delay_before
  · cases hr : bot.chatActionResult ca
    · simp [processItem, typingPart, caCost, hc, hr]
    · simp [processItem, typingPart, caCost, hc, hr]
    · exact absurd hr h
  · simp [processItem, typingPart, caCost, hc]

theorem runLoop_eq_of_recoverable (bot : Bot) (cid : Int)
    (h : chatActionsRecoverable bot) (items : List TimedMessage) :
    ∀ ca sm : Nat,
      runLoop bot cid items ca sm = (seqTraceFrom bot cid items ca sm, false) := by
  induction items with
  | nil => intro ca sm; rfl
  | cons item rest ih =>
    intro ca sm
    simp [runLoop, seqTraceFrom,
      processItem_eq_of_not_crash bot cid item ca sm (h ca), ih]

theorem sentTexts_seqTraceFrom (bot : Bot) (cid : Int) (items : List TimedMessage) :
    ∀ ca sm : Nat,
      sentTexts (seqTraceFrom bot cid items ca sm)
        = items.map (fun item => item.text) := by
  induction items with
  | nil => intro ca sm; rfl
  | cons item rest ih =>
    intro ca sm
    simp [seqTraceFrom, sentTexts_append, sentTexts_typingPart,
      sentTexts_sleepEvs, sentTexts_sendPart, ih]

theorem sentTexts_initSleep (d : ℚ) : sentTexts (initSleep d) = [] := by
  unfold initSleep
  split <;> rfl

theorem send_delayed_sequence_eq_of_recoverable (bot : Bot) (cid : Int)
    (seq : List TimedMessage) (d : ℚ) (h : chatActionsRecoverable bot) :
    send_delayed_sequence bot cid seq d
      = ⟨initSleep d ++ seqTraceFrom bot cid seq 0 0, some ()⟩ := by
  simp [send_delayed_sequence, runLoop_eq_of_recoverable bot cid h seq 0 0]

theorem countChatActions_append (a b : List Event) :
    countChatActions (a ++ b) = countChatActions a + countChatActions b := by
  simp [countChatActions, List.filter_append]

theorem countChatActions_sendPart (bot : Bot) (cid : Int) (t : String) (sm : Nat) :
    countChatActions (sendPart bot cid t sm) = 0 := by
  unfold sendPart
  cases bot.sendMessageResult sm <;> simp [countChatActions]

theorem countChatActions_sleepEvs (item : TimedMessage) :
    countChatActions (sleepEvs item) = 0 := by
  unfold sleepEvs
  split <;> simp [countChatActions]

theorem countSends_eq_length_sentTexts (evs : List Event) :
    countSends evs = (sentTexts evs).length := rfl

theorem countChatActions_nil : countChatActions [] = 0 := rfl

theorem countChatActions_chatAction_cons (cid : Int) (evs : List Event) :
    countChatActions (Event.chatAction cid :: evs) = countChatActions evs + 1 := rfl

theorem countChatActions_logWarning_cons (evs : List Event) :
    countChatActions (Event.logWarning :: evs) = countChatActions evs := rfl

theorem countChatActions_initSleep (d : ℚ) : countChatActions (initSleep d) = 0 := by
  unfold initSleep
  split <;> rfl

theorem targetConfined_initSleep (cid : Int) (d : ℚ) :
    (initSleep d).all (targetConfined cid) = true := by
  unfold initSleep
  split <;> rfl

theorem sentTexts_nil : sentTexts [] = [] := rfl

theorem sentTexts_chatAction_cons (cid : Int) (evs : List Event) :
    sentTexts (Event.chatAction cid :: evs) = sentTexts evs := rfl

theorem sentTexts_logWarning_cons (evs : List Event) :
    sentTexts (Event.logWarning :: evs) = sentTexts evs := rfl

theorem countSends_processItem_le (bot : Bot) (cid : Int) (item : TimedMessage)
    (ca sm : Nat) : countSends (processItem bot cid item ca sm).1 ≤ 1 := by
  by_cases hc : item.typing = true ∧ (0.2 : ℚ) < item.delay_before
  · cases hr : bot.chatActionResult ca <;>
      simp [processItem, countSends, hc, hr, sentTexts_append,
        sentTexts_sleepEvs, sentTexts_sendPart, sentTexts_chatAction_cons,
        sentTexts_logWarning_cons, sentTexts_nil]
  · simp [processItem, countSends, hc, sentTexts_append,
      sentTexts_sleepEvs, sentTexts_sendPart, sentTexts_nil]

theorem countSends_runLoop_le (bot : Bot) (cid : Int) (items : List TimedMessage) :
    ∀ ca sm : Nat, countSends (runLoop bot cid items ca sm).1 ≤ items.length := by
  induction items with
  | nil => intro ca sm; simp [runLoop, countSends, sentTexts]
  | cons item rest ih =>
    intro ca sm
    have hle := countSends_processItem_le bot cid item ca sm
    rcases hp : processItem bot cid item ca sm with ⟨ev, ca2, sm2, escaped⟩
    rw [hp] at hle
    cases escaped
    · rcases hr : runLoop bot cid rest ca2 sm2 with ⟨evRest, escaped2⟩
      have hle2 := ih ca2 sm2
      rw [hr] at hle2
      simp only [runLoop, hp, hr, if_neg Bool.false_ne_true, List.length_cons]
      calc countSends (ev ++ evRest)
          = countSends ev + countSends evRest := by
            simp [countSends, sentTexts_append]
        _ ≤ 1 + rest.length := Nat.add_le_add hle hle2
        _ = rest.length + 1 := Nat.add_comm 1 rest.length
    · simp only [runLoop, hp, if_pos rfl]
      exact le_trans hle (Nat.succ_le_succ (Nat.zero_le rest.length))

theorem targetConfined_append (cid : Int) (a b : List Event) :
    (a ++ b).all (targetConfined cid) = ((a.all (targetConfined cid)) && (b.all (targetConfined cid))) :=
  List.all_append

theorem targetConfined_sendPart (bot : Bot) (cid : Int) (t : String) (sm : Nat) :
    (sendPart bot cid t sm).all (targetConfined cid) = true := by
  unfold sendPart
  cases bot.sendMessageResult sm <;> simp [targetConfined]

theorem targetConfined_sleepEvs (cid : Int) (item : TimedMessage) :
    (sleepEvs item).all (targetConfined cid) = true := by
  unfold sleepEvs
  split <;> simp [targetConfined]

theorem targetConfined_typingPart (bot : Bot) (cid : Int) (item : TimedMessage) (ca : Nat) :
    (typingPart bot cid item ca).all (targetConfined cid) = true := by
  unfold typingPart
  split
  · cases bot.chatActionResult ca <;> simp [targetConfined]
  · simp

theorem targetConfined_processItem (bot : Bot) (cid : Int) (item : TimedMessage)
    (ca sm : Nat) : (processItem bot cid item ca sm).1.all (targetConfined cid) = true := by
  by_cases hc : item.typing = true ∧ (0.2 : ℚ) < item.delay_before
  · cases hr : bot.chatActionResult ca <;>
      simp [processItem, hc, hr, targetConfined_append, targetConfined_sleepEvs,
        targetConfined_sendPart, targetConfined]
  · simp [processItem, hc, targetConfined_append, targetConfined_sleepEvs,
      targetConfined_sendPart]

theorem targetConfined_runLoop (bot : Bot) (cid : Int) (items : List TimedMessage) :
    ∀ ca sm : Nat, (runLoop bot cid items ca sm).1.all (targetConfined cid) = true := by
  induction items with
  | nil => intro ca sm; rfl
  | cons item rest ih =>
    intro ca sm
    have hpc := targetConfined_processItem bot cid item ca sm
    rcases hp : processItem bot cid item ca sm with ⟨ev, ca2, sm2, escaped⟩
    rw [hp] at hpc
    cases escaped
    · rcases hr : runLoop bot cid rest ca2 sm2 with ⟨evRest, escaped2⟩
      have hrc := ih ca2 sm2
      rw [hr] at hrc
      simp only [runLoop, hp, hr, if_neg Bool.false_ne_true]
      simp [targetConfined_append, hpc, hrc]
    · simp only [runLoop, hp, if_pos rfl]
      exact hpc

theorem processItem_congr (bot bot2 : Bot) (cid : Int) (item : TimedMessage)
    (ca sm : Nat)
    (h1 : bot.chatActionResult ca = bot2.chatActionResult ca)
    (h2 : bot.sendMessageResult sm = bot2.sendMessageResult sm) :
    processItem bot cid item ca sm = processItem bot2 cid item ca sm := by
  unfold processItem sendPart
  rw [h1, h2]

theorem runLoop_congr (bot bot2 : Bot) (cid : Int)
    (h1 : ∀ n, bot.chatActionResult n = bot2.chatActionResult n)
    (h2 : ∀ n, bot.sendMessageResult n = bot2.sendMessageResult n)
    (items : List TimedMessage) :
    ∀ ca sm : Nat, runLoop bot cid items ca sm = runLoop bot2 cid items ca sm := by
  induction items with
  | nil => intro ca sm; rfl
  | cons item rest ih =>
    intro ca sm
    have hpe := processItem_congr bot bot2 cid item ca sm (h1 ca) (h2 sm)
    rcases hp : processItem bot2 cid item ca sm with ⟨ev, ca2, sm2, escaped⟩
    rw [hp] at hpe
    cases escaped <;> simp [runLoop, hpe, hp, ih ca2 sm2]

/-- Claim C1 (counterexample): `send_delayed_sequence` is annotated
`-> None` and every return path yields `None`, so the call does not return
a per-item outcome list.  Concretely, the value returned for a one-item
sequence is the same as the value returned for the empty sequence, and the
value returned when the item's send raises a `TelegramError` is the same
as the value returned when it succeeds — contradicting the claim that the
call returns a list of length exactly N whose entry i is the success
handle or failure marker of the send attempt for S[i]. -/
theorem C1_no_outcome_list_counterexample :
    (send_delayed_sequence okBot 1 [⟨"A", 0, false⟩] 0).ret
        = (send_delayed_sequence okBot 1 [] 0).ret
      ∧ (send_delayed_sequence tgSendFailBot 1 [⟨"A", 0, false⟩] 0).ret
        = (send_delayed_sequence okBot 1 [⟨"A", 0, false⟩] 0).ret
      ∧ (send_delayed_sequence okBot 1 [⟨"A", 0, false⟩] 0).ret = some () := by
  refine ⟨?_, ?_, ?_⟩ <;>
    norm_num [send_delayed_sequence, initSleep, runLoop, processItem, sendPart,
      sleepEvs, okBot, tgSendFailBot]

/-- Claim C1 (amended): for every delivery client whose chat-action
failures are all of class `TelegramError` (so no exception escapes,
cf. C7), dispatching a sequence of length N makes exactly N send attempts,
one per item, in input order — the i-th attempt sends S[i].text — and the
call returns normally; but its return value is `None`, not an outcome
list. -/
theorem C1_one_send_per_item_in_order (bot : Bot) (cid : Int)
    (seq : List TimedMessage) (d : ℚ) (h : chatActionsRecoverable bot) :
    countSends (send_delayed_sequence bot cid seq d).trace = seq.length
      ∧ sentTexts (send_delayed_sequence bot cid seq d).trace
          = seq.map (fun item => item.text)
      ∧ (send_delayed_sequence bot cid seq d).ret = some () := by
  have he := send_delayed_sequence_eq_of_recoverable bot cid seq d h
  have hst : sentTexts (send_delayed_sequence bot cid seq d).trace
      = seq.map (fun item => item.text) := by
    rw [he]
    simp only [sentTexts_append, sentTexts_initSleep, List.nil_append]
    exact sentTexts_seqTraceFrom bot cid seq 0 0
  refine ⟨?_, hst, ?_⟩
  · rw [countSends_eq_length_sentTexts, hst, List.length_map]
  · rw [he]

/-- Claim C1 witness: concrete instance of the amended claim, at a
two-item sequence against an all-succeeding client. -/
theorem C1_one_send_per_item_in_order_witness :
    countSends (send_delayed_sequence okBot 7 [⟨"A", 0, false⟩, ⟨"B", 1, true⟩] 0).trace = 2
      ∧ sentTexts (send_delayed_sequence okBot 7 [⟨"A", 0, false⟩, ⟨"B", 1, true⟩] 0).trace
          = ["A", "B"]
      ∧ (send_delayed_sequence okBot 7 [⟨"A", 0, false⟩, ⟨"B", 1, true⟩] 0).ret = some () := by
  have h := C1_one_send_per_item_in_order okBot 7 [⟨"A", 0, false⟩, ⟨"B", 1, true⟩] 0
    (fun n hn => OpResult.noConfusion hn)
  exact ⟨h.1, by simpa using h.2.1, h.2.2⟩

/-- Claim C2: if every chat-action failure of the client is a
`TelegramError` (the delivery-error class, cf. C7) and the send for item i
raises a `TelegramError`, the dispatch call still returns normally — no
exception escapes — and every item of the sequence, including every item
after i, still gets its send attempt (the trace contains one send per
item, in order).  The conclusion holds for arbitrary send results, so
items after the failing one are attempted no matter how many sends
fail. -/
theorem C2_send_failure_nonfatal (bot : Bot) (cid : Int)
    (seq : List TimedMessage) (d : ℚ) (i : Nat)
    (h : chatActionsRecoverable bot) (_hi : i < seq.length)
    (_hfail : bot.sendMessageResult i = OpResult.telegramError) :
    (send_delayed_sequence bot cid seq d).ret = some ()
      ∧ sentTexts (send_delayed_sequence bot cid seq d).trace
          = seq.map (fun item => item.text) := by
  have he := send_delayed_sequence_eq_of_recoverable bot cid seq d h
  constructor
  · rw [he]
  · rw [he]
    simp only [sentTexts_append, sentTexts_initSleep, List.nil_append]
    exact sentTexts_seqTraceFrom bot cid seq 0 0

/-- Claim C2 witness: the client fails the second send (index 1) with a
`TelegramError`; items "A", "B" and "C" are all attempted and the call
returns normally. -/
theorem C2_send_failure_nonfatal_witness :
    (send_delayed_sequence tgSendFailAt1Bot 9
        [⟨"A", 0, false⟩, ⟨"B", 0, false⟩, ⟨"C", 0, false⟩] 0).ret = some ()
      ∧ sentTexts (send_delayed_sequence tgSendFailAt1Bot 9
          [⟨"A", 0, false⟩, ⟨"B", 0, false⟩, ⟨"C", 0, false⟩] 0).trace
          = ["A", "B", "C"] := by
  have h := C2_send_failure_nonfatal tgSendFailAt1Bot 9
    [⟨"A", 0, false⟩, ⟨"B", 0, false⟩, ⟨"C", 0, false⟩] 0 1
    (fun n hn => OpResult.noConfusion hn)
    (by norm_num)
    (by simp [tgSendFailAt1Bot])
  exact ⟨h.1, by simpa using h.2⟩

/-- Claim C3: one loop iteration emits a typing presence signal (a
`send_chat_action` attempt) for an item exactly when the item's `typing`
flag is true and its `delay_before` strictly exceeds 0.2 seconds; in
particular, for `typing = true` with `delay_before = 0.1` the dispatched
trace contains no chat action, and for `delay_before = 1.0` it contains
exactly one chat action, occurring before the send. -/
theorem C3_typing_signal_iff_threshold :
    (∀ (bot : Bot) (cid : Int) (item : TimedMessage) (ca sm : Nat),
        countChatActions (processItem bot cid item ca sm).1
          = if item.typing = true ∧ (0.2 : ℚ) < item.delay_before then 1 else 0)
      ∧ send_delayed_sequence okBot 5 [⟨"m", 0.1, true⟩] 0
          = ⟨[Event.sleep 0.1, Event.send 5 "m"], some ()⟩
      ∧ send_delayed_sequence okBot 5 [⟨"m", 1, true⟩] 0
          = ⟨[Event.chatAction 5, Event.sleep 1, Event.send 5 "m"], some ()⟩ := by
  refine ⟨?_, ?_, ?_⟩
  · intro bot cid item ca sm
    by_cases hc : item.typing = true ∧ (0.2 : ℚ) < item.delay_before
    · cases hr : bot.chatActionResult ca <;>
        simp [processItem, hc, hr, countChatActions_append,
          countChatActions_sleepEvs, countChatActions_sendPart,
          countChatActions_chatAction_cons, countChatActions_logWarning_cons,
          countChatActions_nil]
    · simp [processItem, hc, countChatActions_append,
        countChatActions_sleepEvs, countChatActions_sendPart,
        countChatActions_nil]
  · norm_num [send_delayed_sequence, initSleep, runLoop, processItem, sendPart,
      sleepEvs, okBot]
  · norm_num [send_delayed_sequence, initSleep, runLoop, processItem, sendPart,
      sleepEvs, okBot]

/-- Claim C4: an item whose `delay_before` is zero or negative gets no
sleep and no typing presence signal; its loop iteration is exactly the
send attempt (the typing guard `delay_before > 0.2` and the sleep guard
`delay_before > 0` both fail). -/
theorem C4_nonpositive_delay_immediate_send (bot : Bot) (cid : Int)
    (item : TimedMessage) (ca sm : Nat) (h : item.delay_before ≤ 0) :
    processItem bot cid item ca sm
      = (sendPart bot cid item.text sm, ca, sm + 1, false) := by
  have h1 : ¬(item.typing = true ∧ (0.2 : ℚ) < item.delay_before) := by
    rintro ⟨-, hlt⟩
    linarith
  have h2 : ¬((0 : ℚ) < item.delay_before) := not_lt.mpr h
  simp [processItem, sleepEvs, h1, h2]

/-- Claim C4 witness: an item with `delay_before = 0` and `typing = true`
produces only its send attempt. -/
theorem C4_nonpositive_delay_immediate_send_witness :
    processItem okBot 1 ⟨"x", 0, true⟩ 0 0 = ([Event.send 1 "x"], 0, 1, false) := by
  have h := C4_nonpositive_delay_immediate_send okBot 1 ⟨"x", 0, true⟩ 0 0 (le_refl 0)
  simpa [sendPart, okBot] using h

/-- Claim C5 (counterexample): for the empty sequence the source returns
`None` (the function is annotated `-> None`), not an empty outcome list:
the value returned for the empty sequence is `None` and coincides with the
value returned for a nonempty sequence, so no outcome list of any length
is being returned. -/
theorem C5_empty_return_counterexample :
    send_delayed_sequence okBot 1 [] 0 = ⟨[], some ()⟩
      ∧ (send_delayed_sequence okBot 1 [] 0).ret
          = (send_delayed_sequence okBot 1 [⟨"B", 0, false⟩] 0).ret := by
  constructor <;>
    norm_num [send_delayed_sequence, initSleep, runLoop, processItem, sendPart,
      sleepEvs, okBot]

/-- Claim C5 (amended): dispatching the empty sequence performs no send
attempt and no presence signal against the target — its whole trace is
just the initial-delay sleep, if any — and the call returns normally
(returning `None`, as on every path). -/
theorem C5_empty_sequence_no_attempts (bot : Bot) (cid : Int) (d : ℚ) :
    (send_delayed_sequence bot cid [] d).trace = initSleep d
      ∧ countSends (send_delayed_sequence bot cid [] d).trace = 0
      ∧ countChatActions (send_delayed_sequence bot cid [] d).trace = 0
      ∧ (send_delayed_sequence bot cid [] d).ret = some () := by
  have ht : (send_delayed_sequence bot cid [] d).trace = initSleep d := by
    rw [send_delayed_sequence_trace]
    simp [runLoop]
  refine ⟨ht, ?_, ?_, ?_⟩
  · rw [countSends_eq_length_sentTexts, ht, sentTexts_initSleep]
    rfl
  · rw [ht, countChatActions_initSleep]
  · rw [send_delayed_sequence_ret]
    simp [runLoop]

/-- Claim C6: the sequencer never retries and never duplicates a send:
for every client, every sequence and every initial delay, the dispatched
trace contains at most one send attempt per item (`≤ N` attempts in
total, even on runs aborted by an escaping chat-action exception, cf. C7),
and on every run in which chat-action failures are `TelegramError` it
contains exactly one send attempt per item, in input order, regardless of
how many sends fail. -/
theorem C6_at_most_one_send_per_item (bot : Bot) (cid : Int)
    (seq : List TimedMessage) (d : ℚ) :
    countSends (send_delayed_sequence bot cid seq d).trace ≤ seq.length
      ∧ (chatActionsRecoverable bot →
          sentTexts (send_delayed_sequence bot cid seq d).trace
            = seq.map (fun item => item.text)) := by
  constructor
  · rw [countSends_eq_length_sentTexts, send_delayed_sequence_trace,
      sentTexts_append, sentTexts_initSleep, List.nil_append,
      ← countSends_eq_length_sentTexts]
    exact countSends_runLoop_le bot cid seq 0 0
  · intro h
    rw [send_delayed_sequence_trace, sentTexts_append, sentTexts_initSleep,
      List.nil_append, runLoop_eq_of_recoverable bot cid h seq 0 0]
    exact sentTexts_seqTraceFrom bot cid seq 0 0

/-- Claim C6 witness: concrete two-item dispatch where both sends fail
with `TelegramError`; still exactly one attempt per item, in order. -/
theorem C6_at_most_one_send_per_item_witness :
    countSends (send_delayed_sequence tgSendFailBot 8
        [⟨"A", 0, false⟩, ⟨"B", 0, false⟩] 0).trace ≤ 2
      ∧ sentTexts (send_delayed_sequence tgSendFailBot 8
          [⟨"A", 0, false⟩, ⟨"B", 0, false⟩] 0).trace = ["A", "B"] := by
  have h := C6_at_most_one_send_per_item tgSendFailBot 8
    [⟨"A", 0, false⟩, ⟨"B", 0, false⟩] 0
  exact ⟨h.1, by simpa using h.2 (fun n hn => OpResult.noConfusion hn)⟩

/-- Claim C7 (counterexample): the source catches only `TelegramError`
around `bot.send_chat_action` (lines 60-63), so a presence-signal failure
of any other exception class is not logged and aborts the sequence: with a
client whose chat action raises a non-`TelegramError` exception, the
one-item dispatch produces only the chat-action attempt — no log, no
sleep, no send for that item — and the exception escapes the call
(`ret = none`).  This refutes the claim for arbitrary presence-signal
failures. -/
theorem C7_presence_crash_counterexample :
    send_delayed_sequence caCrashBot 1 [⟨"T", 1, true⟩] 0
      = ⟨[Event.chatAction 1], none⟩ := by
  norm_num [send_delayed_sequence, initSleep, runLoop, processItem, sendPart,
    sleepEvs, caCrashBot]

/-- Claim C7 (amended): for every item whose typing presence signal is
attempted (typing flag set and delay above the 0.2 s threshold) and whose
`send_chat_action` raises a `TelegramError`, the failure is logged as a
warning and the iteration still proceeds to the item's sleep and send
attempt; presence-signal failures of other exception classes instead
propagate out of the call (see the counterexample). -/
theorem C7_telegram_presence_failure_nonfatal (bot : Bot) (cid : Int)
    (item : TimedMessage) (ca sm : Nat) (h1 : item.typing = true)
    (h2 : (0.2 : ℚ) < item.delay_before)
    (h3 : bot.chatActionResult ca = OpResult.telegramError) :
    processItem bot cid item ca sm
      = ([Event.chatAction cid, Event.logWarning, Event.sleep item.delay_before]
           ++ sendPart bot cid item.text sm, ca + 1, sm + 1, false) := by
  have hc : item.typing = true ∧ (0.2 : ℚ) < item.delay_before := ⟨h1, h2⟩
  have hpos : (0 : ℚ) < item.delay_before := lt_trans (by norm_num) h2
  simp [processItem, sleepEvs, hc, h3, hpos]

/-- Claim C7 witness: concrete item whose chat action fails with a
`TelegramError`; the warning is logged and the send is still attempted. -/
theorem C7_telegram_presence_failure_nonfatal_witness :
    processItem caTgFailBot 2 ⟨"T", 1, true⟩ 0 0
      = ([Event.chatAction 2, Event.logWarning, Event.sleep 1, Event.send 2 "T"],
         1, 1, false) := by
  have h := C7_telegram_presence_failure_nonfatal caTgFailBot 2 ⟨"T", 1, true⟩ 0 0
    rfl (by norm_num) rfl
  simpa [sendPart, caTgFailBot] using h

/-- Claim C8: processing is strictly sequential in input order.  On every
run in which chat-action failures are `TelegramError`, the dispatched
trace is exactly the initial-delay sleep followed by the per-item blocks
concatenated in input order, where the block of item i is its typing
signal (if any), then its sleep (if any), then its send attempt, computed
at send-call index i (`seqTraceFrom` with send counter starting at 0 and
advancing by exactly one per item); hence all of item i's events complete
before any event of item i+1, and the visible messages appear in input
order. -/
theorem C8_strictly_sequential (bot : Bot) (cid : Int)
    (seq : List TimedMessage) (d : ℚ) (h : chatActionsRecoverable bot) :
    (send_delayed_sequence bot cid seq d).trace
        = initSleep d ++ seqTraceFrom bot cid seq 0 0
      ∧ sentTexts (send_delayed_sequence bot cid seq d).trace
          = seq.map (fun item => item.text) := by
  have he := send_delayed_sequence_eq_of_recoverable bot cid seq d h
  constructor
  · rw [he]
  · rw [he]
    simp only [sentTexts_append, sentTexts_initSleep, List.nil_append]
    exact sentTexts_seqTraceFrom bot cid seq 0 0

/-- Claim C8 witness: concrete two-item dispatch; the trace is the ordered
concatenation of the two per-item blocks and the messages appear in input
order. -/
theorem C8_strictly_sequential_witness :
    (send_delayed_sequence okBot 3 [⟨"A", 0, false⟩, ⟨"B", 1, true⟩] 0).trace
        = [Event.send 3 "A", Event.chatAction 3, Event.sleep 1, Event.send 3 "B"]
      ∧ sentTexts (send_delayed_sequence okBot 3
          [⟨"A", 0, false⟩, ⟨"B", 1, true⟩] 0).trace = ["A", "B"] := by
  have h := C8_strictly_sequential okBot 3 [⟨"A", 0, false⟩, ⟨"B", 1, true⟩] 0
    (fun n hn => OpResult.noConfusion hn)
  constructor
  · rw [h.1]
    norm_num [initSleep, seqTraceFrom, typingPart, sleepEvs, sendPart, caCost,
      okBot]
  · rw [h.2]
    rfl

/-- Claim C9: the only side effects of a dispatch are presence signals and
sends against the supplied chat id — every chat-action and send event of
the trace carries exactly the supplied `chat_id`, and the remaining events
are sleeps and log records — and the sequencer is stateless: its behaviour
is a function of its arguments alone, so two invocations with the same
inputs whose clients give the same responses produce identical results.
(The embedding is a pure function of `(bot, chat_id, sequence,
initial_delay)`, mirroring that the source reads, but never writes, the
input sequence, module state or per-user session state.) -/
theorem C9_effects_confined_and_deterministic (bot bot2 : Bot) (cid : Int)
    (seq : List TimedMessage) (d : ℚ) :
    (send_delayed_sequence bot cid seq d).trace.all (targetConfined cid) = true
      ∧ ((∀ n, bot.chatActionResult n = bot2.chatActionResult n) →
         (∀ n, bot.sendMessageResult n = bot2.sendMessageResult n) →
         send_delayed_sequence bot cid seq d = send_delayed_sequence bot2 cid seq d) := by
  constructor
  · rw [send_delayed_sequence_trace, targetConfined_append,
      targetConfined_initSleep, targetConfined_runLoop]
    rfl
  · intro h1 h2
    unfold send_delayed_sequence
    rw [runLoop_congr bot bot2 cid h1 h2 seq 0 0]

/-- Claim C9 witness: concrete dispatch whose trace is confined to the
supplied chat id, and identical to a second invocation with the same
inputs and responses. -/
theorem C9_effects_confined_and_deterministic_witness :
    (send_delayed_sequence okBot 4 [⟨"A", 0, false⟩] 0).trace.all (targetConfined 4) = true
      ∧ send_delayed_sequence okBot 4 [⟨"A", 0, false⟩] 0
          = send_delayed_sequence okBot 4 [⟨"A", 0, false⟩] 0 := by
  have h := C9_effects_confined_and_deterministic okBot okBot 4 [⟨"A", 0, false⟩] 0
  exact ⟨h.1, h.2 (fun n => rfl) (fun n => rfl)⟩

/-- Claim C10: when `initial_delay > 0` the initial sleep is the very
first event of the dispatch, before any per-item processing — and it is
performed even when the sequence is empty, in which case it is the whole
trace (the source checks `initial_delay > 0` before entering the loop and
does not special-case empty input). -/
theorem C10_initial_delay_not_skipped (bot : Bot) (cid : Int)
    (seq : List TimedMessage) (d : ℚ) (h : (0 : ℚ) < d) :
    (send_delayed_sequence bot cid seq d).trace
        = Event.sleep d :: (runLoop bot cid seq 0 0).1
      ∧ (send_delayed_sequence bot cid [] d).trace = [Event.sleep d] := by
  have hinit : initSleep d = [Event.sleep d] := by simp [initSleep, h]
  constructor
  · rw [send_delayed_sequence_trace, hinit]
    rfl
  · rw [send_delayed_sequence_trace, hinit]
    simp [runLoop]

/-- Claim C10 witness: with `initial_delay = 2`, the sleep leads the trace
of a one-item dispatch and is the whole trace of an empty dispatch. -/
theorem C10_initial_delay_not_skipped_witness :
    (send_delayed_sequence okBot 6 [⟨"A", 0, false⟩] 2).trace
        = [Event.sleep 2, Event.send 6 "A"]
      ∧ (send_delayed_sequence okBot 6 [] 2).trace = [Event.sleep 2] := by
  have h := C10_initial_delay_not_skipped okBot 6 [⟨"A", 0, false⟩] 2 (by norm_num)
  refine ⟨?_, h.2⟩
  rw [h.1]
  norm_num [runLoop, processItem, sendPart, sleepEvs, okBot]

end Z1Gray
